import Mathlib

/-!
Verification development for the x402-push-chain payment protocol.

Shallow embedding of the protocol kernel:
  - the authorization codec of `X402Client.createPayment` /
    `VerificationService.decodePaymentHeader` (JSON-serialize then base64,
    and the reverse),
  - the verification pipeline of `VerificationService.verifyPayment`,
  - the signature-check wrapper `VerificationService.verifySignature` and the
    chain-id table `VerificationService.getChainId`,
  - the settlement pipeline `SettlementService.verifyTransaction` /
    `SettlementService.settlePayment`,
  - the on-chain registry state machine `X402PaymentRegistry.recordPayment` /
    `markPaymentSettled`.

External collaborators (the EIP-712 recover primitive, the token registry,
the UEA factory origin resolver, the source-chain RPC node) enter as explicit
function parameters or outcome values, so every definition is executable.
`keccak256(abi.encodePacked(...))` is modelled as an injective function by
using the packed preimage tuple itself as the identifier.
-/

namespace X402

/-! ### Generic helpers -/

/-- ASCII lower-casing of a string, the model of JavaScript `toLowerCase()`
on the ASCII addresses this code compares. -/
def lowerStr (s : String) : String := String.mk (s.data.map Char.toLower)

/-- Lookup in an association list; models reading a JS `Record`/Solidity `mapping`. -/
def lookupAssoc {α β : Type} [DecidableEq α] : List (α × β) → α → Option β
  | [], _ => none
  | (k, v) :: rest, key => if k = key then some v else lookupAssoc rest key

/-- Update/insert in an association list; models assignment into a JS
`Record`/Solidity `mapping`. -/
def setAssoc {α β : Type} [DecidableEq α] : List (α × β) → α → β → List (α × β)
  | [], key, val => [(key, val)]
  | (k, v) :: rest, key, val =>
      if k = key then (key, val) :: rest else (k, v) :: setAssoc rest key val

deriving instance DecidableEq for Except

/-- Whether an `Except` computation succeeded. -/
def exceptOk {ε α : Type} : Except ε α → Bool
  | .ok _ => true
  | .error _ => false

/-- The success value of an `Except` computation, if any. -/
def exceptToOption {ε α : Type} : Except ε α → Option α
  | .ok a => some a
  | .error _ => none

theorem lookupAssoc_setAssoc_self {α β : Type} [DecidableEq α]
    (l : List (α × β)) (k : α) (v : β) : lookupAssoc (setAssoc l k v) k = some v := by
  induction l with
  | nil => simp [setAssoc, lookupAssoc]
  | cons hd tl ih =>
      obtain ⟨k0, v0⟩ := hd
      by_cases h : k0 = k
      · simp [setAssoc, h, lookupAssoc]
      · simp [setAssoc, h, lookupAssoc, ih]

theorem lookupAssoc_setAssoc_ne {α β : Type} [DecidableEq α]
    (l : List (α × β)) (k k' : α) (v : β) (h : k' ≠ k) :
    lookupAssoc (setAssoc l k v) k' = lookupAssoc l k' := by
  induction l with
  | nil =>
      simp only [setAssoc, lookupAssoc]
      rw [if_neg (Ne.symm h)]
  | cons hd tl ih =>
      obtain ⟨k0, v0⟩ := hd
      by_cases h0 : k0 = k
      · subst h0
        simp only [setAssoc, if_pos rfl, lookupAssoc]
        rw [if_neg (Ne.symm h), if_neg (Ne.symm h)]
      · simp only [setAssoc, if_neg h0, lookupAssoc]
        by_cases h1 : k0 = k'
        · rw [if_pos h1, if_pos h1]
        · rw [if_neg h1, if_neg h1, ih]

/-! ### Base64 (the `Buffer.from(s).toString('base64')` /
`Buffer.from(h, 'base64')` pair used by the codec)

Encoding is RFC 4648 with `=` padding, operating on byte lists.  Decoding is
the strict inverse: the lenient byte-skipping of Node's decoder is not
modelled, which only matters for inputs that are not encoder outputs (those
still land in the same decode-failure channel). -/

/-- The base64 alphabet. -/
def b64alphabet : List Char :=
  "ABCDEFGHIJKLMNOPQRSTUVWXYZabcdefghijklmnopqrstuvwxyz0123456789+/".data

/-- Sextet value to base64 character. -/
def b64chr (n : Nat) : Char := b64alphabet.getD n 'A'

/-- Base64 character back to its sextet value. -/
def b64val (c : Char) : Option Nat := go b64alphabet 0 where
  go : List Char → Nat → Option Nat
    | [], _ => none
    | x :: xs, i => if x = c then some i else go xs (i + 1)

/-- Encode a byte list into base64 characters, three bytes per four chars,
with `=` padding for a final group of one or two bytes. -/
def b64encodeChars : List Nat → List Char
  | [] => []
  | [b1] => [b64chr (b1 / 4), b64chr (b1 % 4 * 16), '=', '=']
  | [b1, b2] => [b64chr (b1 / 4), b64chr (b1 % 4 * 16 + b2 / 16), b64chr (b2 % 16 * 4), '=']
  | b1 :: b2 :: b3 :: rest =>
      b64chr (b1 / 4) :: b64chr (b1 % 4 * 16 + b2 / 16) ::
      b64chr (b2 % 16 * 4 + b3 / 64) :: b64chr (b3 % 64) :: b64encodeChars rest

/-- Decode one four-character base64 group into one, two or three bytes. -/
def b64decodeGroup (a b c d : Char) : Option (List Nat) :=
  match b64val a, b64val b with
  | some ia, some ib =>
      if c = '=' then
        if d = '=' then some [ia * 4 + ib / 16] else none
      else
        match b64val c with
        | some ic =>
            if d = '=' then some [ia * 4 + ib / 16, ib % 16 * 16 + ic / 4]
            else
              match b64val d with
              | some id' => some [ia * 4 + ib / 16, ib % 16 * 16 + ic / 4, ic % 4 * 64 + id']
              | none => none
        | none => none
  | _, _ => none

/-- Decode a base64 character list (length a multiple of four) back to bytes. -/
def b64decodeChars : List Char → Option (List Nat)
  | [] => some []
  | a :: b :: c :: d :: rest =>
      match b64decodeGroup a b c d, b64decodeChars rest with
      | some g, some gs => some (g ++ gs)
      | _, _ => none
  | _ => none

theorem b64val_b64chr (x : Nat) (hx : x < 64) : b64val (b64chr x) = some x := by
  interval_cases x <;> decide

theorem b64chr_ne_eq (x : Nat) (hx : x < 64) : b64chr x ≠ '=' := by
  interval_cases x <;> decide

/-- Round trip of the base64 layer: decoding an encoded byte list recovers it
exactly, for genuine bytes. -/
theorem b64decode_b64encode : ∀ bs : List Nat, (∀ b ∈ bs, b < 256) →
    b64decodeChars (b64encodeChars bs) = some bs := by
  intro bs
  induction bs using b64encodeChars.induct with
  | case1 =>
      intro _; simp [b64encodeChars, b64decodeChars]
  | case2 b1 =>
      intro hmem
      have h1 : b1 < 256 := hmem b1 (by simp)
      have hd4 : b1 / 4 < 64 := by omega
      have hm4 : b1 % 4 * 16 < 64 := by omega
      simp only [b64encodeChars, b64decodeChars, b64decodeGroup,
        b64val_b64chr _ hd4, b64val_b64chr _ hm4]
      norm_num
      omega
  | case3 b1 b2 =>
      intro hmem
      have h1 : b1 < 256 := hmem b1 (by simp)
      have h2 : b2 < 256 := hmem b2 (by simp)
      have hd4 : b1 / 4 < 64 := by omega
      have hmix : b1 % 4 * 16 + b2 / 16 < 64 := by omega
      have hc3 : b2 % 16 * 4 < 64 := by omega
      simp only [b64encodeChars, b64decodeChars, b64decodeGroup,
        b64val_b64chr _ hd4, b64val_b64chr _ hmix, b64val_b64chr _ hc3]
      rw [if_neg (b64chr_ne_eq _ hc3)]
      norm_num
      constructor <;> omega
  | case4 b1 b2 b3 rest ih =>
      intro hmem
      have h1 : b1 < 256 := hmem b1 (by simp)
      have h2 : b2 < 256 := hmem b2 (by simp)
      have h3 : b3 < 256 := hmem b3 (by simp)
      have hrest : ∀ b ∈ rest, b < 256 := fun b hb => hmem b (by simp [hb])
      have hd4 : b1 / 4 < 64 := by omega
      have hmix : b1 % 4 * 16 + b2 / 16 < 64 := by omega
      have hc3 : b2 % 16 * 4 + b3 / 64 < 64 := by omega
      have hc4 : b3 % 64 < 64 := by omega
      simp only [b64encodeChars, b64decodeChars, b64decodeGroup,
        b64val_b64chr _ hd4, b64val_b64chr _ hmix, b64val_b64chr _ hc3,
        b64val_b64chr _ hc4]
      rw [if_neg (b64chr_ne_eq _ hc3), if_neg (b64chr_ne_eq _ hc4)]
      rw [ih hrest]
      simp only [Option.some.injEq, List.cons_append, List.nil_append, List.cons.injEq]
      exact ⟨by omega, by omega, by omega, trivial⟩

/-! ### Decimal rendering and parsing of naturals (the `JSON.stringify` /
`JSON.parse` treatment of the numeric `x402Version` field) -/

/-- Digit value to ASCII digit character. -/
def digitChar (d : Nat) : Char := Char.ofNat (48 + d)

/-- The decimal digits of a natural, least-significant first. -/
def revDigits : Nat → List Nat
  | 0 => []
  | n + 1 => (n + 1) % 10 :: revDigits ((n + 1) / 10)
decreasing_by omega

/-- The decimal digit values of a natural, most-significant first. -/
def natDigitsList (n : Nat) : List Nat :=
  if n = 0 then [0] else (revDigits n).reverse

/-- Decimal rendering of a natural as characters. -/
def natChars (n : Nat) : List Char := (natDigitsList n).map digitChar

/-- Greedy decimal accumulation, the numeric branch of a JSON scanner. -/
def parseDigits : Nat → List Char → Nat × List Char
  | acc, [] => (acc, [])
  | acc, c :: rest =>
      if c.isDigit then parseDigits (acc * 10 + (c.toNat - 48)) rest else (acc, c :: rest)

/-- True when the input does not continue with a digit (so a greedy number
parse stops exactly here). -/
def notDigitHead : List Char → Bool
  | [] => true
  | c :: _ => !c.isDigit

theorem digitChar_isDigit (d : Nat) (h : d < 10) : (digitChar d).isDigit = true := by
  interval_cases d <;> decide

theorem digitChar_toNat (d : Nat) (h : d < 10) : (digitChar d).toNat = 48 + d := by
  interval_cases d <;> decide

theorem isDigit_ne_quote_brace (c : Char) (h : c.isDigit = true) : c ≠ '"' ∧ c ≠ '{' := by
  constructor <;> (intro heq; rw [heq] at h; exact absurd h (by decide))

theorem revDigits_lt (n : Nat) : ∀ d ∈ revDigits n, d < 10 := by
  induction n using Nat.strong_induction_on with
  | _ n ih =>
      match n with
      | 0 => intro d hd; simp [revDigits] at hd
      | m + 1 =>
          intro d hd
          rw [revDigits] at hd
          rcases List.mem_cons.mp hd with h | h
          · omega
          · exact ih ((m + 1) / 10) (by omega) d h

theorem natDigitsList_lt (n : Nat) : ∀ d ∈ natDigitsList n, d < 10 := by
  intro d hd
  unfold natDigitsList at hd
  by_cases h : n = 0
  · simp [h] at hd; omega
  · rw [if_neg h, List.mem_reverse] at hd
    exact revDigits_lt n d hd

theorem foldr_revDigits (n : Nat) :
    List.foldr (fun d a => a * 10 + d) 0 (revDigits n) = n := by
  induction n using Nat.strong_induction_on with
  | _ n ih =>
      match n with
      | 0 => simp [revDigits]
      | m + 1 =>
          rw [revDigits, List.foldr_cons, ih ((m + 1) / 10) (by omega)]
          omega

theorem foldl_natDigitsList (n : Nat) :
    List.foldl (fun a d => a * 10 + d) 0 (natDigitsList n) = n := by
  unfold natDigitsList
  by_cases h : n = 0
  · simp [h]
  · rw [if_neg h, List.foldl_reverse, foldr_revDigits]

theorem foldl_map_digitChar (ds : List Nat) : ∀ acc : Nat, (∀ d ∈ ds, d < 10) →
    List.foldl (fun a c => a * 10 + (c.toNat - 48)) acc (ds.map digitChar) =
      List.foldl (fun a d => a * 10 + d) acc ds := by
  induction ds with
  | nil => intro acc _; rfl
  | cons d ds ih =>
      intro acc hlt
      have hd : d < 10 := hlt d (by simp)
      simp only [List.map_cons, List.foldl_cons, digitChar_toNat d hd]
      rw [ih (acc * 10 + (48 + d - 48)) (fun x hx => hlt x (by simp [hx]))]
      congr 1
      omega

theorem parseDigits_append (ds : List Char) : ∀ (acc : Nat) (rest : List Char),
    (∀ c ∈ ds, c.isDigit = true) → notDigitHead rest = true →
    parseDigits acc (ds ++ rest) =
      (List.foldl (fun a c => a * 10 + (c.toNat - 48)) acc ds, rest) := by
  induction ds with
  | nil =>
      intro acc rest _ hrest
      match rest with
      | [] => rfl
      | c :: r =>
          have : c.isDigit = false := by
            simpa [notDigitHead] using hrest
          simp [parseDigits, this]
  | cons c cs ih =>
      intro acc rest hds hrest
      have hc : c.isDigit = true := hds c (by simp)
      simp only [List.cons_append, parseDigits, hc, if_pos]
      rw [show cs.append rest = cs ++ rest from rfl,
        ih _ rest (fun x hx => hds x (by simp [hx])) hrest]
      simp [List.foldl_cons]

theorem parseDigits_natChars (n : Nat) (rest : List Char) (hrest : notDigitHead rest = true) :
    parseDigits 0 (natChars n ++ rest) = (n, rest) := by
  unfold natChars
  rw [parseDigits_append _ 0 rest
        (fun c hc => by
          rcases List.mem_map.mp hc with ⟨d, hd, rfl⟩
          exact digitChar_isDigit d (natDigitsList_lt n d hd)) hrest,
      foldl_map_digitChar _ 0 (natDigitsList_lt n), foldl_natDigitsList]

theorem natChars_head (n : Nat) :
    ∃ c t, natChars n = c :: t ∧ c.isDigit = true := by
  unfold natChars natDigitsList
  by_cases h : n = 0
  · exact ⟨'0', [], by simp [h, digitChar], by decide⟩
  · rw [if_neg h]
    have hne : revDigits n ≠ [] := by
      match n, h with
      | m + 1, _ => rw [revDigits]; simp
    match hrev : (revDigits n).reverse with
    | [] => exact absurd (by simpa using congrArg List.length hrev) (by simpa using hne)
    | d :: ds =>
        refine ⟨digitChar d, ds.map digitChar, by simp, ?_⟩
        have : d ∈ revDigits n := by
          rw [← List.mem_reverse, hrev]; simp
        exact digitChar_isDigit d (revDigits_lt n d this)

/-! ### The JSON fragment of the codec

`X402Client.createPayment` serializes the payment payload with
`JSON.stringify` and `VerificationService.decodePaymentHeader` parses it back
with `JSON.parse`.  The payload grammar uses only objects, strings and a
small natural (`x402Version`), so the model covers exactly that fragment:
`stringifyJson` renders it the way `JSON.stringify` does (insertion order,
no whitespace), and `parseJsonVal` is a strict recursive-descent reader of
that grammar.  String escapes are not modelled; the well-formedness
predicate `wfJson` below restricts string contents to printable ASCII
without `"` or `\`, on which `JSON.stringify` quotes verbatim. -/

inductive Json where
  | num : Nat → Json
  | str : String → Json
  | obj : List (String × Json) → Json

mutual

/-- Model of `JSON.stringify` on the payload grammar. -/
def stringifyJson : Json → List Char
  | .num n => natChars n
  | .str s => '"' :: s.data ++ ['"']
  | .obj fields => '{' :: stringifyFields fields ++ ['}']

/-- Comma-separated `"key":value` members, insertion order. -/
def stringifyFields : List (String × Json) → List Char
  | [] => []
  | (k, v) :: rest => '"' :: k.data ++ '"' :: ':' :: stringifyJson v ++ stringifySep rest

/-- The separator before the remaining members, if any. -/
def stringifySep : List (String × Json) → List Char
  | [] => []
  | fs => ',' :: stringifyFields fs

end

/-- Read a string body up to its closing quote (escape-free fragment). -/
def parseStrBody : List Char → Option (List Char × List Char)
  | [] => none
  | c :: rest =>
      if c = '"' then some ([], rest)
      else
        match parseStrBody rest with
        | some (s, r) => some (c :: s, r)
        | none => none

mutual

/-- Recursive-descent reader for the payload's JSON fragment; `fuel` bounds
the recursion and is instantiated with the input length. -/
def parseJsonVal : Nat → List Char → Option (Json × List Char)
  | 0, _ => none
  | _ + 1, [] => none
  | fuel + 1, c :: rest =>
      if c = '"' then
        match parseStrBody rest with
        | some (s, r) => some (.str (String.mk s), r)
        | none => none
      else if c = '{' then
        match rest with
        | [] => none
        | r0 :: r1 =>
            if r0 = '}' then some (.obj [], r1)
            else
              match parseJsonFields fuel (r0 :: r1) with
              | some (fs, r2) => some (.obj fs, r2)
              | none => none
      else if c.isDigit then
        let p := parseDigits 0 (c :: rest)
        some (.num p.1, p.2)
      else none

/-- One-or-more object members; consumes the closing brace. -/
def parseJsonFields : Nat → List Char → Option (List (String × Json) × List Char)
  | 0, _ => none
  | _ + 1, [] => none
  | fuel + 1, c :: rest =>
      if c = '"' then
        match parseStrBody rest with
        | some (k, r1) =>
            match r1 with
            | ':' :: r2 =>
                match parseJsonVal fuel r2 with
                | some (v, r3) =>
                    match r3 with
                    | ',' :: r4 =>
                        match parseJsonFields fuel r4 with
                        | some (fs, r5) => some ((String.mk k, v) :: fs, r5)
                        | none => none
                    | '}' :: r4 => some ([(String.mk k, v)], r4)
                    | _ => none
                | none => none
            | _ => none
        | none => none
      else none

end

/-- Model of `JSON.parse` on a whole document of the payload grammar. -/
def parseJson (s : String) : Option Json :=
  match parseJsonVal (s.length + 1) s.data with
  | some (j, []) => some j
  | _ => none

/-- Printable ASCII without quote or backslash: the strings on which
`JSON.stringify` emits the content verbatim between quotes. -/
def jsonStringOk (s : String) : Bool :=
  s.data.all (fun c => 32 ≤ c.toNat && c.toNat < 127 && c ≠ '"' && c ≠ '\\')

mutual

/-- Well-formed payload JSON: every string (key or value) is `jsonStringOk`. -/
def wfJson : Json → Bool
  | .num _ => true
  | .str s => jsonStringOk s
  | .obj fields => wfFields fields

def wfFields : List (String × Json) → Bool
  | [] => true
  | (k, v) :: rest => jsonStringOk k && wfJson v && wfFields rest

end

theorem stringMk_data (s : String) : String.mk s.data = s := rfl

theorem jsonStringOk_no_quote (s : String) (h : jsonStringOk s = true) :
    ∀ c ∈ s.data, c ≠ '"' := by
  intro c hc
  have hcb := (List.all_eq_true.mp h) c hc
  simp only [Bool.and_eq_true, decide_eq_true_eq] at hcb
  exact hcb.1.2

theorem parseStrBody_append (s : List Char) : ∀ rest : List Char, (∀ c ∈ s, c ≠ '"') →
    parseStrBody (s ++ '"' :: rest) = some (s, rest) := by
  induction s with
  | nil => intro rest _; simp [parseStrBody]
  | cons c cs ih =>
      intro rest h
      have hc : c ≠ '"' := h c (by simp)
      simp only [List.cons_append, parseStrBody, if_neg hc]
      rw [show cs.append ('"' :: rest) = cs ++ '"' :: rest from rfl,
        ih rest (fun x hx => h x (by simp [hx]))]

theorem parseJsonVal_brace_cons (f : Nat) (r0 : Char) (r1 : List Char) :
    parseJsonVal (f + 1) ('{' :: r0 :: r1) =
      (if r0 = '}' then some (.obj [], r1)
       else
         match parseJsonFields f (r0 :: r1) with
         | some (fs, r2) => some (.obj fs, r2)
         | none => none) := rfl

theorem parseJsonFields_step (f : Nat) (input : List Char) (k : List Char) (r2 : List Char)
    (hbody : parseStrBody input = some (k, ':' :: r2)) :
    parseJsonFields (f + 1) ('"' :: input) =
      (match parseJsonVal f r2 with
       | some (v, r3) =>
           match r3 with
           | ',' :: r4 =>
               (match parseJsonFields f r4 with
                | some (fs, r5) => some ((String.mk k, v) :: fs, r5)
                | none => none)
           | '}' :: r4 => some ([(String.mk k, v)], r4)
           | _ => none
       | none => none) := by
  simp [parseJsonFields, hbody]

mutual

/-- Round trip of the JSON layer, value side: the strict reader recovers
exactly what `stringifyJson` produced, leaving the rest untouched. -/
theorem parseJsonVal_stringify : ∀ (j : Json) (fuel : Nat) (rest : List Char),
    wfJson j = true → (stringifyJson j).length < fuel → notDigitHead rest = true →
    parseJsonVal fuel (stringifyJson j ++ rest) = some (j, rest)
  | .num n, fuel, rest => by
      intro _ hf hrest
      cases fuel with
      | zero => exact absurd hf (Nat.not_lt_zero _)
      | succ f =>
          obtain ⟨c, t, hn, hdig⟩ := natChars_head n
          have harg : stringifyJson (.num n) ++ rest = c :: (t ++ rest) := by
            simp [stringifyJson, hn]
          rw [harg]
          obtain ⟨hq, hb⟩ := isDigit_ne_quote_brace c hdig
          simp only [parseJsonVal, if_neg hq, if_neg hb, hdig, if_pos]
          have hp : parseDigits 0 (c :: (t ++ rest)) = (n, rest) := by
            rw [show c :: (t ++ rest) = natChars n ++ rest by simp [hn]]
            exact parseDigits_natChars n rest hrest
          rw [hp]
  | .str s, fuel, rest => by
      intro hwf hf _
      cases fuel with
      | zero => exact absurd hf (Nat.not_lt_zero _)
      | succ f =>
          have harg : stringifyJson (.str s) ++ rest = '"' :: (s.data ++ '"' :: rest) := by
            simp [stringifyJson]
          rw [harg]
          simp only [parseJsonVal, if_pos rfl]
          rw [parseStrBody_append s.data rest
            (jsonStringOk_no_quote s (by simpa [wfJson] using hwf))]
          simp [stringMk_data]
  | .obj [], fuel, rest => by
      intro _ hf _
      cases fuel with
      | zero => exact absurd hf (Nat.not_lt_zero _)
      | succ f =>
          have harg : stringifyJson (.obj []) ++ rest = '{' :: '}' :: rest := by
            simp [stringifyJson, stringifyFields]
          rw [harg]
          simp [parseJsonVal]
  | .obj ((k, v) :: fs), fuel, rest => by
      intro hwf hf hrest
      cases fuel with
      | zero => exact absurd hf (Nat.not_lt_zero _)
      | succ f =>
          have hffs : (stringifyFields ((k, v) :: fs)).length < f := by
            have hlen : (stringifyJson (.obj ((k, v) :: fs))).length
                = (stringifyFields ((k, v) :: fs)).length + 2 := by
              simp [stringifyJson]
            omega
          have harg : stringifyJson (.obj ((k, v) :: fs)) ++ rest
              = '{' :: (stringifyFields ((k, v) :: fs) ++ '}' :: rest) := by
            simp [stringifyJson]
          have ht : stringifyFields ((k, v) :: fs)
              = '"' :: (k.data ++ '"' :: ':' :: stringifyJson v ++ stringifySep fs) := by
            simp [stringifyFields]
          have hfields := parseJsonFields_stringify ((k, v) :: fs) f rest (by simp)
            (by simpa [wfJson] using hwf) hffs
          rw [harg, ht]
          rw [ht] at hfields
          simp only [List.cons_append, List.append_assoc] at hfields ⊢
          rw [parseJsonVal_brace_cons, if_neg (by decide : ¬('"' = '}')), hfields]

/-- Round trip of the JSON layer, member-list side: the member reader
consumes the members and the closing brace. -/
theorem parseJsonFields_stringify : ∀ (fs : List (String × Json)) (fuel : Nat) (rest : List Char),
    fs ≠ [] → wfFields fs = true → (stringifyFields fs).length < fuel →
    parseJsonFields fuel (stringifyFields fs ++ '}' :: rest) = some (fs, rest)
  | [], _, _ => by intro h; exact absurd rfl h
  | (k, v) :: fs, fuel, rest => by
      intro _ hwf hf
      cases fuel with
      | zero => exact absurd hf (Nat.not_lt_zero _)
      | succ f =>
          have hwf3 : jsonStringOk k = true ∧ wfJson v = true ∧ wfFields fs = true := by
            simpa [wfFields, Bool.and_eq_true, and_assoc] using hwf
          have hlen : (stringifyFields ((k, v) :: fs)).length
              = k.data.length + (stringifyJson v).length + (stringifySep fs).length + 3 := by
            simp [stringifyFields]
            omega
          have hlenv : (stringifyJson v).length < f := by omega
          have harg : stringifyFields ((k, v) :: fs) ++ '}' :: rest
              = '"' :: (k.data ++ '"' :: ':' ::
                  (stringifyJson v ++ (stringifySep fs ++ '}' :: rest))) := by
            simp [stringifyFields]
          have hbody : parseStrBody (k.data ++ '"' ::
                (':' :: (stringifyJson v ++ (stringifySep fs ++ '}' :: rest))))
              = some (k.data, ':' :: (stringifyJson v ++ (stringifySep fs ++ '}' :: rest))) :=
            parseStrBody_append k.data _ (jsonStringOk_no_quote k hwf3.1)
          rw [harg, parseJsonFields_step f _ k.data _ hbody]
          have hrest2 : notDigitHead (stringifySep fs ++ '}' :: rest) = true := by
            cases fs with
            | nil => simp [stringifySep, notDigitHead]
            | cons f0 fs0 => simp [stringifySep, notDigitHead]
          rw [parseJsonVal_stringify v f _ hwf3.2.1 hlenv hrest2]
          cases fs with
          | nil => simp [stringifySep, stringMk_data]
          | cons f0 fs0 =>
              have hlenfs : (stringifyFields (f0 :: fs0)).length < f := by
                have hsep : (stringifySep (f0 :: fs0)).length
                    = (stringifyFields (f0 :: fs0)).length + 1 := by
                  simp [stringifySep]
                omega
              simp only [stringifySep, List.cons_append]
              rw [parseJsonFields_stringify (f0 :: fs0) f rest (by simp) hwf3.2.2 hlenfs]

end

/-! ### ASCII byte bridge (`Buffer.from(s)` / `buf.toString('utf-8')` on the
ASCII content this codec produces) -/

/-- Bytes of a string; on the ASCII content of the codec this is exactly the
UTF-8 encoding `Buffer.from` performs. -/
def strToBytes (s : String) : List Nat := s.data.map Char.toNat

/-- String from bytes, the ASCII reading of `buffer.toString('utf-8')`. -/
def bytesToStr (bs : List Nat) : String := String.mk (bs.map Char.ofNat)

theorem bytesToStr_strToBytes (s : String) : bytesToStr (strToBytes s) = s := by
  unfold bytesToStr strToBytes
  rw [List.map_map]
  have : s.data.map (Char.ofNat ∘ Char.toNat) = s.data.map id := by
    apply List.map_congr_left
    intro c _
    exact Char.ofNat_toNat c
  rw [this, List.map_id, stringMk_data]

theorem jsonStringOk_toNat_lt (s : String) (h : jsonStringOk s = true) :
    ∀ c ∈ s.data, c.toNat < 256 := by
  intro c hc
  have hcb := (List.all_eq_true.mp h) c hc
  simp only [Bool.and_eq_true, decide_eq_true_eq] at hcb
  omega

theorem natChars_toNat_lt (n : Nat) : ∀ c ∈ natChars n, c.toNat < 256 := by
  intro c hc
  rcases List.mem_map.mp hc with ⟨d, hd, rfl⟩
  have : d < 10 := natDigitsList_lt n d hd
  rw [digitChar_toNat d this]
  omega

mutual

theorem stringifyJson_toNat_lt : ∀ j : Json, wfJson j = true →
    ∀ c ∈ stringifyJson j, c.toNat < 256
  | .num n, _ => by
      intro c hc
      rw [stringifyJson] at hc
      exact natChars_toNat_lt n c hc
  | .str s, hwf => by
      intro c hc
      rw [stringifyJson] at hc
      rcases List.mem_cons.mp hc with rfl | hc
      · decide
      · rcases List.mem_append.mp hc with hc | hc
        · exact jsonStringOk_toNat_lt s (by simpa [wfJson] using hwf) c hc
        · rw [List.mem_singleton] at hc
          subst hc; decide
  | .obj fields, hwf => by
      intro c hc
      rw [stringifyJson] at hc
      rcases List.mem_cons.mp hc with rfl | hc
      · decide
      · rcases List.mem_append.mp hc with hc | hc
        · exact stringifyFields_toNat_lt fields (by simpa [wfJson] using hwf) c hc
        · rw [List.mem_singleton] at hc
          subst hc; decide

theorem stringifyFields_toNat_lt : ∀ fs : List (String × Json), wfFields fs = true →
    ∀ c ∈ stringifyFields fs, c.toNat < 256
  | [], _ => by intro c hc; rw [stringifyFields] at hc; exact absurd hc (List.not_mem_nil c)
  | (k, v) :: fs, hwf => by
      intro c hc
      have hwf3 : jsonStringOk k = true ∧ wfJson v = true ∧ wfFields fs = true := by
        simpa [wfFields, Bool.and_eq_true, and_assoc] using hwf
      rw [stringifyFields] at hc
      simp only [List.cons_append, List.append_assoc, List.mem_cons, List.mem_append] at hc
      have hsep : c ∈ stringifySep fs → c.toNat < 256 := by
        intro hmem
        cases fs with
        | nil =>
            simp only [stringifySep] at hmem
            exact absurd hmem (List.not_mem_nil c)
        | cons f0 fs0 =>
            simp only [stringifySep] at hmem
            rcases List.mem_cons.mp hmem with rfl | hmem
            · decide
            · exact stringifyFields_toNat_lt (f0 :: fs0) hwf3.2.2 c hmem
      rcases hc with rfl | hc | rfl | rfl | hc | hc
      · decide
      · exact jsonStringOk_toNat_lt k hwf3.1 c hc
      · decide
      · decide
      · exact stringifyJson_toNat_lt v hwf3.2.1 c hc
      · exact hsep hc

end

/-- The whole-document round trip of the JSON layer. -/
theorem parseJson_stringifyJson (j : Json) (hwf : wfJson j = true) :
    parseJson (String.mk (stringifyJson j)) = some j := by
  unfold parseJson
  have hval := parseJsonVal_stringify j ((stringifyJson j).length + 1) [] hwf (by omega) rfl
  simp only [List.append_nil] at hval
  rw [show (String.mk (stringifyJson j)).data = stringifyJson j from rfl,
    show (String.mk (stringifyJson j)).length = (stringifyJson j).length from rfl, hval]

/-! ### Error model (`ErrorCode` enum and `AppError` of the facilitator's
`types/index.ts` and `middleware/errorHandler.ts`) -/

inductive ErrorCode where
  | INVALID_REQUEST
  | INVALID_SIGNATURE
  | INSUFFICIENT_AMOUNT
  | EXPIRED_PAYMENT
  | NONCE_USED
  | UNSUPPORTED_NETWORK
  | UNSUPPORTED_TOKEN
  | SETTLEMENT_FAILED
  | PAYMENT_NOT_FOUND
  | ALREADY_SETTLED
  | RATE_LIMIT_EXCEEDED
  | UNAUTHORIZED
  | INTERNAL_ERROR
deriving DecidableEq

/-- The facilitator's structured error (`AppError`); the `details` payload is
not modelled. -/
structure AppError where
  code : ErrorCode
  message : String
  statusCode : Nat := 400
deriving DecidableEq

/-! ### The wire payment payload and the authorization codec

`X402Client.createPayment` builds the payload object with string-valued
authorization fields (`generateAuthorization`), serializes it with
`JSON.stringify` and base64-encodes it; the facilitator's
`decodePaymentHeader` base64-decodes and `JSON.parse`s it inside a
`try`/`catch` that converts any failure into the structured
`INVALID_REQUEST` error. -/

/-- The authorization object built by `X402Client.generateAuthorization`
(all values strings on the wire; `fromAddr`/`toAddr` carry the JSON keys
`from`/`to`). -/
structure WireAuthorization where
  fromAddr : String
  toAddr : String
  value : String
  validAfter : String
  validBefore : String
  nonce : String
deriving DecidableEq

/-- The payment payload object built by `X402Client.createPayment`. -/
structure WirePayload where
  x402Version : Nat
  scheme : String
  network : String
  signature : String
  authorization : WireAuthorization
deriving DecidableEq

/-- The JSON image of the authorization, field order as in
`generateAuthorization`. -/
def wireAuthToJson (a : WireAuthorization) : Json :=
  .obj [("from", .str a.fromAddr), ("to", .str a.toAddr), ("value", .str a.value),
        ("validAfter", .str a.validAfter), ("validBefore", .str a.validBefore),
        ("nonce", .str a.nonce)]

/-- The JSON image of the payload, field order as in `createPayment`. -/
def wireToJson (w : WirePayload) : Json :=
  .obj [("x402Version", .num w.x402Version), ("scheme", .str w.scheme),
        ("network", .str w.network),
        ("payload", .obj [("signature", .str w.signature),
                          ("authorization", wireAuthToJson w.authorization)])]

/-- Property read on a decoded JSON object (the dynamic field access the
facilitator performs on the parsed payload). -/
def jget : Json → String → Option Json
  | .obj fields, key => lookupAssoc fields key
  | _, _ => none

def jstr : Json → Option String
  | .str s => some s
  | _ => none

def jnum : Json → Option Nat
  | .num n => some n
  | _ => none

/-- Reading the authorization fields back out of decoded JSON. -/
def wireAuthFromJson (j : Json) : Option WireAuthorization := do
  let f ← jget j "from" >>= jstr
  let t ← jget j "to" >>= jstr
  let v ← jget j "value" >>= jstr
  let va ← jget j "validAfter" >>= jstr
  let vb ← jget j "validBefore" >>= jstr
  let n ← jget j "nonce" >>= jstr
  some ⟨f, t, v, va, vb, n⟩

/-- Reading the whole payload back out of decoded JSON. -/
def wireFromJson (j : Json) : Option WirePayload := do
  let ver ← jget j "x402Version" >>= jnum
  let sch ← jget j "scheme" >>= jstr
  let net ← jget j "network" >>= jstr
  let pl ← jget j "payload"
  let sig ← jget pl "signature" >>= jstr
  let auth ← jget pl "authorization" >>= wireAuthFromJson
  some ⟨ver, sch, net, sig, auth⟩

/-- `X402Client.createPayment`, final step:
`Buffer.from(JSON.stringify(paymentPayload)).toString('base64')`. -/
def encodePaymentHeader (w : WirePayload) : String :=
  String.mk (b64encodeChars (strToBytes (String.mk (stringifyJson (wireToJson w)))))

/-- The error thrown by `decodePaymentHeader` on malformed input. -/
def invalidEncodingError : AppError :=
  { code := .INVALID_REQUEST, message := "Invalid payment header encoding" }

/-- `VerificationService.decodePaymentHeader`:
`JSON.parse(Buffer.from(paymentHeader, 'base64').toString('utf-8'))`, with the
`try`/`catch` that converts any failure into the structured
`INVALID_REQUEST` error instead of letting the exception escape. -/
def decodePaymentHeader (paymentHeader : String) : Except AppError Json :=
  match b64decodeChars paymentHeader.data with
  | none => .error invalidEncodingError
  | some bytes =>
      match parseJson (bytesToStr bytes) with
      | none => .error invalidEncodingError
      | some j => .ok j

theorem decodePaymentHeader_encodePaymentHeader (w : WirePayload)
    (hwf : wfJson (wireToJson w) = true) :
    decodePaymentHeader (encodePaymentHeader w) = .ok (wireToJson w) := by
  have hbytes : ∀ b ∈ strToBytes (String.mk (stringifyJson (wireToJson w))), b < 256 := by
    intro b hb
    rcases List.mem_map.mp hb with ⟨c, hc, rfl⟩
    exact stringifyJson_toNat_lt (wireToJson w) hwf c hc
  unfold decodePaymentHeader encodePaymentHeader
  rw [show (String.mk (b64encodeChars (strToBytes
        (String.mk (stringifyJson (wireToJson w)))))).data
      = b64encodeChars (strToBytes (String.mk (stringifyJson (wireToJson w)))) from rfl]
  simp only [b64decode_b64encode _ hbytes, bytesToStr_strToBytes,
    parseJson_stringifyJson (wireToJson w) hwf]

theorem wireFromJson_wireToJson (w : WirePayload) : wireFromJson (wireToJson w) = some w := by
  obtain ⟨ver, sch, net, sig, f, t, v, va, vb, n⟩ := w
  rfl

theorem decodePaymentHeader_total (s : String) :
    decodePaymentHeader s = .error invalidEncodingError ∨
      ∃ j, decodePaymentHeader s = .ok j := by
  unfold decodePaymentHeader
  cases hb : b64decodeChars s.data with
  | none => left; rfl
  | some bytes =>
      cases hp : parseJson (bytesToStr bytes) with
      | none => left; simp [hp]
      | some j => right; exact ⟨j, by simp [hp]⟩

/-! ### Typed protocol data (`types/index.ts`)

The wire carries decimal strings for the numeric authorization fields;
the facilitator converts them with `BigInt`/`parseInt` before comparing.
The verification model below works on payloads whose numeric fields are
well-formed decimal strings, represented directly as naturals. -/

/-- `Authorization` of `types/index.ts` (`from`/`to` are `fromAddr`/`toAddr`;
`value`, `validAfter`, `validBefore` carried as parsed numerics). -/
structure Authorization where
  fromAddr : String
  toAddr : String
  value : Nat
  validAfter : Nat
  validBefore : Nat
  nonce : String
deriving DecidableEq

/-- `ExactPaymentPayload`, plus the extra `txHash` property the settlement
service destructures from `paymentPayload.payload` (absent from the declared
interface, set dynamically by the paying agent). -/
structure ExactPaymentPayload where
  signature : String
  authorization : Authorization
  txHash : Option String := none
deriving DecidableEq

/-- `PaymentPayload` of `types/index.ts`. -/
structure PaymentPayload where
  x402Version : Nat
  scheme : String
  network : String
  payload : ExactPaymentPayload
deriving DecidableEq

/-- An EIP-712 domain as built by `verifySignature`. -/
structure Eip712Domain where
  name : String
  version : String
  chainId : Nat
  verifyingContract : String
deriving DecidableEq

/-- `PaymentRequirements` of `types/index.ts` (`maxAmountRequired` is a
decimal string on the wire, `BigInt`-parsed before comparison, so carried
as a natural; `extra?.domain` is `extraDomain`). -/
structure PaymentRequirements where
  scheme : String
  network : String
  maxAmountRequired : Nat
  resource : String
  description : String := ""
  mimeType : String := ""
  payTo : String
  maxTimeoutSeconds : Nat := 0
  asset : String
  extraDomain : Option Eip712Domain := none
deriving DecidableEq

/-- `VerificationResponse` of `types/index.ts`. -/
structure VerificationResponse where
  isValid : Bool
  invalidReason : Option String
  paymentId : Option String := none
  estimatedGas : Option String := none
  expiresAt : Option Nat := none
deriving DecidableEq

/-! ### Chain-id resolution (`VerificationService.getChainId`) -/

/-- The network table inside `getChainId`. -/
def chainIdTable : List (String × Nat) :=
  [("push-chain", 42101), ("ethereum-sepolia", 11155111), ("ethereum", 1),
   ("base-sepolia", 84532), ("base", 8453), ("arbitrum", 42161),
   ("optimism", 10), ("polygon", 137)]

/-- `getChainId`: `chainIds[network] || 42101` — a missing entry silently
defaults to the Push Chain id (no table value is `0`, so JavaScript's `||`
coincides with defaulting the missed lookup). -/
def getChainId (network : String) : Nat :=
  (lookupAssoc chainIdTable network).getD 42101

/-! ### Signature verification (`VerificationService.verifySignature`)

The EIP-712 recovery primitive `ethers.verifyTypedData` is an external
cryptographic collaborator; it enters as the `recover` parameter, returning
either the recovered address or an error (`ethers` throws on malformed
signatures, addresses or domain values).  The surrounding `try`/`catch`
of `verifySignature` maps any such error to `false`. -/

/-- The domain `verifySignature` builds:
`requirements.extra?.domain` if present, else the literal
`{name: 'x402 Payment', version: '1', chainId: getChainId(network),
verifyingContract: requirements.asset}`. -/
def buildDomain (pp : PaymentPayload) (req : PaymentRequirements) : Eip712Domain :=
  req.extraDomain.getD
    { name := "x402 Payment", version := "1", chainId := getChainId pp.network,
      verifyingContract := req.asset }

/-- `verifySignature`: recover the signer over the built domain and compare
case-insensitively with `authorization.from`; any recovery error is caught
and returned as `false`. -/
def verifySignature (recover : Eip712Domain → Authorization → String → Except String String)
    (pp : PaymentPayload) (req : PaymentRequirements) : Bool :=
  match recover (buildDomain pp req) pp.payload.authorization pp.payload.signature with
  | .ok recoveredAddress =>
      lowerStr recoveredAddress == lowerStr pp.payload.authorization.fromAddr
  | .error _ => false

/-! ### Verification pipeline (`VerificationService.verifyPayment`, the
checks after `decodePaymentHeader`)

`isSupportedToken` is the token-registry collaborator
(`contractService.isSupportedToken`); `now` is `Date.now()/1000`. -/

/-- The native-asset sentinel the pipeline compares `requirements.asset`
against. -/
def nativeAssetSentinel : String := "0x0000000000000000000000000000000000000000"

/-- A failing verification response (reason only, like the early returns). -/
def failedVerification (reason : String) : VerificationResponse :=
  { isValid := false, invalidReason := some reason }

/-- `verifyPayment` after decoding: version, scheme, signature, amount,
token support (natives skip the registry query), then the time window;
success carries `estimatedGas: '300000'` and `expiresAt: validBefore`. -/
def verifyPaymentChecks
    (recover : Eip712Domain → Authorization → String → Except String String)
    (isSupportedToken : String → Bool) (now : Nat) (requestVersion : Nat)
    (pp : PaymentPayload) (req : PaymentRequirements) : VerificationResponse :=
  if pp.x402Version ≠ requestVersion then failedVerification "Version mismatch"
  else if pp.scheme ≠ "exact" then failedVerification "Unsupported payment scheme"
  else if verifySignature recover pp req = false then
    failedVerification "Invalid signature"
  else if pp.payload.authorization.value < req.maxAmountRequired then
    failedVerification ("Insufficient amount. Required: " ++ toString req.maxAmountRequired
      ++ ", Provided: " ++ toString pp.payload.authorization.value)
  else if req.asset ≠ nativeAssetSentinel ∧ isSupportedToken req.asset = false then
    failedVerification "Unsupported token"
  else if now < pp.payload.authorization.validAfter then
    failedVerification "Payment not yet valid"
  else if pp.payload.authorization.validBefore < now then
    failedVerification "Payment expired"
  else
    { isValid := true, invalidReason := none, estimatedGas := some "300000",
      expiresAt := some pp.payload.authorization.validBefore }

/-- The verification pipeline as the spec words it (for the order claim):
checks in the order version, scheme, signature, amount sufficiency
(`value >= maxAmountRequired`), token support with the native sentinel
always passing, then the inclusive time window
(`validAfter <= now <= validBefore`); first failing check names the reason;
on success `expiresAt = validBefore`. -/
def verifyPaymentSpecOrder
    (recover : Eip712Domain → Authorization → String → Except String String)
    (isSupportedToken : String → Bool) (now : Nat) (requestVersion : Nat)
    (pp : PaymentPayload) (req : PaymentRequirements) : VerificationResponse :=
  if pp.x402Version ≠ requestVersion then failedVerification "Version mismatch"
  else if pp.scheme ≠ "exact" then failedVerification "Unsupported payment scheme"
  else if ¬ verifySignature recover pp req = true then
    failedVerification "Invalid signature"
  else if ¬ req.maxAmountRequired ≤ pp.payload.authorization.value then
    failedVerification ("Insufficient amount. Required: " ++ toString req.maxAmountRequired
      ++ ", Provided: " ++ toString pp.payload.authorization.value)
  else if ¬ (req.asset = nativeAssetSentinel ∨ isSupportedToken req.asset = true) then
    failedVerification "Unsupported token"
  else if ¬ pp.payload.authorization.validAfter ≤ now then
    failedVerification "Payment not yet valid"
  else if ¬ now ≤ pp.payload.authorization.validBefore then
    failedVerification "Payment expired"
  else
    { isValid := true, invalidReason := none, estimatedGas := some "300000",
      expiresAt := some pp.payload.authorization.validBefore }

/-! ### The on-chain Payment Registry (`X402PaymentRegistry.sol`)

Addresses are carried as strings (the form in which the TypeScript services
pass them).  The UEA factory predeploy is the external origin resolver: it
enters as a parameter mapping a payer address to `some` universal account
(`isUEA = true`) or `none` (native Push Chain EOA).  `block.timestamp` is
the explicit `blockTimestamp` parameter.  `keccak256(abi.encodePacked(...))`
for the payment id is modelled injectively by the packed preimage tuple
`PaymentIdPre`; the requirement id is the `(merchant, resource)` preimage. -/

/-- `IUEAFactory.UniversalAccountId` (`owner` is the raw source-chain address
bytes). -/
structure UniversalAccountId where
  chainNamespace : String
  chainId : String
  owner : List Nat
deriving DecidableEq

/-- Hex digit for a value below 16. -/
def hexDigitChar (n : Nat) : Char :=
  if n < 10 then Char.ofNat (48 + n) else Char.ofNat (87 + n)

/-- Two hex characters of one byte. -/
def byteToHexChars (b : Nat) : List Char := [hexDigitChar (b / 16), hexDigitChar (b % 16)]

/-- `address(bytes20(ownerBytes))`: truncate/zero-pad to 20 bytes, rendered
as the usual `0x`-prefixed hex address string. -/
def addrOfBytes20 (bs : List Nat) : String :=
  "0x" ++ String.mk ((bs.take 20 ++ List.replicate (20 - bs.length) 0).flatMap byteToHexChars)

/-- Solidity struct `PaymentRequirement`. -/
structure PaymentRequirement where
  scheme : String
  network : String
  maxAmountRequired : Nat
  resource : String
  description : String
  mimeType : String
  payTo : String
  maxTimeoutSeconds : Nat
  asset : String
  isActive : Bool
  createdAt : Nat
  updatedAt : Nat
deriving DecidableEq

/-- The zero-initialized `PaymentRequirement` a Solidity mapping returns for
a missing key (in particular `isActive = false`). -/
def defaultPaymentRequirement : PaymentRequirement :=
  { scheme := "", network := "", maxAmountRequired := 0, resource := "",
    description := "", mimeType := "", payTo := "", maxTimeoutSeconds := 0,
    asset := "", isActive := false, createdAt := 0, updatedAt := 0 }

/-- The packed preimage of the payment id:
`keccak256(abi.encodePacked(merchant, resource, payer, amount,
block.timestamp, txHash))`, modelled injectively. -/
structure PaymentIdPre where
  merchant : String
  resource : String
  payer : String
  amount : Nat
  timestamp : Nat
  txHash : String
deriving DecidableEq

/-- Solidity struct `PaymentRecord` (`requirementId` is the
`(merchant, resource)` hash preimage). -/
structure PaymentRecord where
  requirementId : String × String
  payer : String
  originChain : String
  originAddress : String
  isUEA : Bool
  amount : Nat
  timestamp : Nat
  txHash : String
  settled : Bool
deriving DecidableEq

/-- The zero-initialized `PaymentRecord` of a missing mapping key
(`timestamp = 0` is the contract's own existence test). -/
def defaultPaymentRecord : PaymentRecord :=
  { requirementId := ("", ""), payer := "", originChain := "", originAddress := "",
    isUEA := false, amount := 0, timestamp := 0, txHash := "", settled := false }

/-- The registry contract's storage. -/
structure RegistryState where
  paymentRequirements : List ((String × String) × PaymentRequirement)
  paymentRecords : List (PaymentIdPre × PaymentRecord)
  merchantPayments : List (String × List PaymentIdPre)
deriving DecidableEq

/-- `paymentRequirements[merchant][resource]` with Solidity default. -/
def getPaymentRequirementStored (st : RegistryState) (merchant resource : String) :
    PaymentRequirement :=
  (lookupAssoc st.paymentRequirements (merchant, resource)).getD defaultPaymentRequirement

/-- `paymentRecords[paymentId]` with Solidity default. -/
def getPaymentRecordStored (st : RegistryState) (paymentId : PaymentIdPre) : PaymentRecord :=
  (lookupAssoc st.paymentRecords paymentId).getD defaultPaymentRecord

/-- `X402PaymentRegistry.recordPayment` (facilitator-role entry point):
require an active requirement and a sufficient amount, resolve the payer's
origin through the UEA factory, derive the timestamp-salted payment id, and
write the unsettled record (mapping assignment: an existing entry under the
same id is overwritten). -/
def recordPayment (resolveOrigin : String → Option UniversalAccountId)
    (blockTimestamp : Nat) (merchant resource payer : String) (amount : Nat)
    (txHash : String) (st : RegistryState) : Except String (PaymentIdPre × RegistryState) :=
  let requirement := getPaymentRequirementStored st merchant resource
  if requirement.isActive = false then .error "Payment requirement not active"
  else if amount < requirement.maxAmountRequired then .error "Insufficient payment amount"
  else
    let origin : String × String × Bool :=
      match resolveOrigin payer with
      | some originAccount =>
          (originAccount.chainNamespace ++ ":" ++ originAccount.chainId,
           addrOfBytes20 originAccount.owner, true)
      | none => ("push-chain", payer, false)
    let paymentId : PaymentIdPre :=
      { merchant := merchant, resource := resource, payer := payer, amount := amount,
        timestamp := blockTimestamp, txHash := txHash }
    let record : PaymentRecord :=
      { requirementId := (merchant, resource), payer := payer, originChain := origin.1,
        originAddress := origin.2.1, isUEA := origin.2.2, amount := amount,
        timestamp := blockTimestamp, txHash := txHash, settled := false }
    .ok (paymentId,
      { st with
        paymentRecords := setAssoc st.paymentRecords paymentId record,
        merchantPayments := setAssoc st.merchantPayments merchant
          ((lookupAssoc st.merchantPayments merchant).getD [] ++ [paymentId]) })

set_option linter.unusedVariables false in
/-- `X402PaymentRegistry.markPaymentSettled`: require an existing
(`timestamp > 0`) and not-yet-settled record, then set `settled := true`.
The settlement hash only feeds the emitted event. -/
def markPaymentSettled (paymentId : PaymentIdPre) (settlementTxHash : String)
    (st : RegistryState) : Except String RegistryState :=
  let record := getPaymentRecordStored st paymentId
  if ¬ record.timestamp > 0 then .error "Payment not found"
  else if record.settled = true then .error "Payment already settled"
  else .ok { st with
    paymentRecords := setAssoc st.paymentRecords paymentId { record with settled := true } }

/-! ### Settlement pipeline (`SettlementService`)

The source-chain RPC interaction of `verifyTransaction` (receipt and
transaction fetch racing a 10-second timeout) is summarized by one
`RpcOutcome` value; `settlePayment` threads the registry state explicitly
and always returns it, so a failing run shows exactly which writes had
already happened. -/

/-- What the source-chain node interaction produced: the `Promise.race`
timeout, a `null` receipt, a `null` transaction, or the retrieved
transaction with its receipt status. -/
inductive RpcOutcome where
  | timeout
  | receiptNotFound
  | txNotFound
  | found (txFrom : String) (txTo : Option String) (txValue : Nat) (receiptStatus : Nat)
deriving DecidableEq

/-- The `rpcUrls` table of `verifyTransaction` (`push-chain` maps to the
configured `config.pushChain.rpc`). -/
def rpcUrls (pushRpc : String) : List (String × String) :=
  [("push-chain", pushRpc),
   ("ethereum-sepolia", "https://ethereum-sepolia-rpc.publicnode.com"),
   ("base-sepolia", "https://sepolia.base.org")]

/-- `SettlementService.verifyTransaction`: reject unsupported networks; on a
timeout, a missing receipt, or missing transaction details it warns and
returns success (the fail-open path); on a retrieved transaction it demands
matching sender, matching recipient, sufficient value and receipt status 1. -/
def verifyTransaction (pushRpc : String) (rpc : RpcOutcome) (network : String)
    (expectedFrom expectedTo : String) (expectedAmount : Nat) : Except AppError Unit :=
  let rpcUrl := (lookupAssoc (rpcUrls pushRpc) network).getD ""
  if rpcUrl = "" then
    .error { code := .SETTLEMENT_FAILED, message := "Unsupported network: " ++ network }
  else
    match rpc with
    | .timeout => .ok ()
    | .receiptNotFound => .ok ()
    | .txNotFound => .ok ()
    | .found txFrom txTo txValue receiptStatus =>
        if lowerStr txFrom ≠ lowerStr expectedFrom then
          .error { code := .SETTLEMENT_FAILED,
                   message := "Transaction from address mismatch. Expected: " ++ expectedFrom
                     ++ ", Got: " ++ txFrom }
        else if txTo.map lowerStr ≠ some (lowerStr expectedTo) then
          .error { code := .SETTLEMENT_FAILED,
                   message := "Transaction to address mismatch. Expected: " ++ expectedTo
                     ++ ", Got: " ++ (txTo.getD "undefined") }
        else if txValue < expectedAmount then
          .error { code := .SETTLEMENT_FAILED,
                   message := "Transaction amount insufficient. Expected: "
                     ++ toString expectedAmount ++ ", Got: " ++ toString txValue }
        else if receiptStatus ≠ 1 then
          .error { code := .SETTLEMENT_FAILED, message := "Transaction failed on source chain" }
        else .ok ()

/-- `SettlementResponse` of `types/index.ts` (`registryTxHash` carries the
payment id, modelled by its preimage). -/
structure SettlementResponse where
  success : Bool
  error : Option String
  txHash : Option String
  networkId : Option String
  timestamp : Nat
  registryTxHash : Option PaymentIdPre := none
deriving DecidableEq

/-- The generic wrapper the settlement catch-all puts around non-`AppError`
failures (contract reverts surface through here). -/
def settlementFailedError : AppError :=
  { code := .SETTLEMENT_FAILED, message := "Settlement failed", statusCode := 500 }

/-- `SettlementService.settlePayment` on an already-decoded payload:
re-verify; require a transfer proof (`!txHash` also rejects the empty
string); confirm the transfer on the source chain; record in the registry;
mark settled.  `settleTxHash` is the receipt hash of the registry
transaction; `nowMs` is the `Date.now()` stamp of the response. -/
def settlePayment
    (recover : Eip712Domain → Authorization → String → Except String String)
    (isSupportedToken : String → Bool)
    (resolveOrigin : String → Option UniversalAccountId)
    (pushRpc : String) (rpc : RpcOutcome) (settleTxHash : String)
    (now blockTimestamp nowMs requestVersion : Nat)
    (pp : PaymentPayload) (req : PaymentRequirements)
    (st : RegistryState) : RegistryState × Except AppError SettlementResponse :=
  let verification := verifyPaymentChecks recover isSupportedToken now requestVersion pp req
  if verification.isValid = false then
    (st, .error { code := .INVALID_SIGNATURE
                  message := "Payment verification failed: "
                    ++ verification.invalidReason.getD "" })
  else
    let authorization := pp.payload.authorization
    let merchant := req.payTo
    let payer := authorization.fromAddr
    let amount := authorization.value
    match pp.payload.txHash with
    | none =>
        (st, .error { code := .SETTLEMENT_FAILED
                      message := "Transaction hash not provided by agent" })
    | some txHash =>
        if txHash = "" then
          (st, .error { code := .SETTLEMENT_FAILED
                        message := "Transaction hash not provided by agent" })
        else
          match verifyTransaction pushRpc rpc pp.network payer merchant amount with
          | .error e => (st, .error e)
          | .ok _ =>
              match recordPayment resolveOrigin blockTimestamp merchant req.resource
                  payer amount txHash st with
              | .error _ => (st, .error settlementFailedError)
              | .ok (paymentId, st1) =>
                  match markPaymentSettled paymentId txHash st1 with
                  | .error _ => (st1, .error settlementFailedError)
                  | .ok st2 =>
                      (st2, .ok { success := true
                                  error := none
                                  txHash := some settleTxHash
                                  networkId := some pp.network
                                  timestamp := nowMs
                                  registryTxHash := some paymentId })

/-! ### Concrete fixtures used by the claim evaluations and witnesses -/

/-- A recovery oracle that always recovers `0xBBB` (a valid signature by
`0xBBB` over whatever is presented). -/
def recoverOkB : Eip712Domain → Authorization → String → Except String String :=
  fun _ _ _ => .ok "0xBBB"

/-- A token registry that supports every asset. -/
def allTokensSupported : String → Bool := fun _ => true

/-- An origin resolver under which every payer is a native Push Chain EOA. -/
def noUea : String → Option UniversalAccountId := fun _ => none

/-- An origin resolver mapping payer `0xBBB` to a Sepolia universal account. -/
def ueaResolver : String → Option UniversalAccountId := fun a =>
  if a = "0xBBB" then
    some { chainNamespace := "eip155", chainId := "11155111", owner := List.replicate 20 221 }
  else none

def sampleAuth : Authorization :=
  { fromAddr := "0xBBB", toAddr := "0xAAA", value := 5, validAfter := 10,
    validBefore := 100, nonce := "0x01" }

def samplePayload (tx : Option String) : PaymentPayload :=
  { x402Version := 1, scheme := "exact", network := "push-chain",
    payload := { signature := "0xSIG", authorization := sampleAuth, txHash := tx } }

def sampleReq : PaymentRequirements :=
  { scheme := "exact", network := "push-chain", maxAmountRequired := 5,
    resource := "/api/premium", payTo := "0xAAA", asset := nativeAssetSentinel }

def sampleRequirement : PaymentRequirement :=
  { scheme := "exact", network := "push-chain", maxAmountRequired := 5,
    resource := "/api/premium", description := "", mimeType := "", payTo := "0xAAA",
    maxTimeoutSeconds := 3600, asset := "", isActive := true, createdAt := 1, updatedAt := 1 }

/-- A registry holding one active requirement for `(0xAAA, /api/premium)`. -/
def sampleRegistry : RegistryState :=
  { paymentRequirements := [(("0xAAA", "/api/premium"), sampleRequirement)],
    paymentRecords := [], merchantPayments := [] }

/-- A source-chain answer matching the sample payment exactly. -/
def goodRpc : RpcOutcome := .found "0xBBB" (some "0xAAA") 5 1

/-- One settlement call on the sample payment at a given block timestamp. -/
def settleOnce (blockTimestamp : Nat) (st : RegistryState) :
    RegistryState × Except AppError SettlementResponse :=
  settlePayment recoverOkB allTokensSupported noUea "rpc" goodRpc "0xSETTLE"
    50 blockTimestamp 1000 1 (samplePayload (some "0xTRANSFER")) sampleReq st

/-- The payment id the sample settlement derives at block timestamp `t`. -/
def samplePid (t : Nat) : PaymentIdPre :=
  { merchant := "0xAAA", resource := "/api/premium", payer := "0xBBB", amount := 5,
    timestamp := t, txHash := "0xTRANSFER" }

/-- One registry `recordPayment` call on the sample payment data. -/
def recordOnce (t : Nat) (st : RegistryState) : Except String (PaymentIdPre × RegistryState) :=
  recordPayment noUea t "0xAAA" "/api/premium" "0xBBB" 5 "0xTRANSFER" st

/-! ### Claim C1 -/

/-- C1: the claim says settlement is at-most-once per distinct transfer
proof, the second `settlePayment` with the same proof returning a conflict
and the registry never holding two records for one proof.  The code salts
the payment id with `block.timestamp`, so two settlements of the same
`(merchant, resource, payer, amount, proof)` at block timestamps 1 and 2
both succeed and leave two distinct records carrying the same proof: the
registry performs no per-proof dedup check and returns no conflict. -/
theorem c1_same_proof_settles_twice :
    exceptOk (settleOnce 1 sampleRegistry).2 = true ∧
    exceptToOption (settleOnce 2 (settleOnce 1 sampleRegistry).1).2 =
      some { success := true, error := none, txHash := some "0xSETTLE",
             networkId := some "push-chain", timestamp := 1000,
             registryTxHash := some (samplePid 2) } ∧
    samplePid 1 ≠ samplePid 2 ∧
    ((settleOnce 2 (settleOnce 1 sampleRegistry).1).1.paymentRecords.filter
        (fun e => e.2.txHash == "0xTRANSFER")).length = 2 := by
  decide

/-! ### Claim C3 -/

/-- The payload redirecting the payment to `0xCCC` while the requirement
registers `0xAAA`. -/
def c3Payload : PaymentPayload :=
  { x402Version := 1, scheme := "exact", network := "push-chain",
    payload := { signature := "0xSIG",
                 authorization := { sampleAuth with toAddr := "0xCCC" } } }

/-- C3: the claim says the pipeline rejects any payload whose
`authorization.to` differs from `requirement.payTo` with a
`RecipientMismatch` verdict.  `verifyPayment` never compares the two: with
`to = 0xCCC` and `payTo = 0xAAA` and every implemented check passing, it
returns `isValid = true`. -/
theorem c3_recipient_mismatch_accepted :
    c3Payload.payload.authorization.toAddr ≠ sampleReq.payTo ∧
    verifyPaymentChecks recoverOkB allTokensSupported 50 1 c3Payload sampleReq =
      { isValid := true, invalidReason := none, estimatedGas := some "300000",
        expiresAt := some 100 } := by
  decide

/-! ### Claim C6 -/

/-- C6: the claim says chain-id resolution fails closed on every network
outside the supported table.  `getChainId` is indeed a pure one-entry-per-
network table lookup, but an unknown network (here `solana-devnet`, a
network string the service's own types mention) silently resolves to the
Push Chain id 42101 instead of an error. -/
theorem c6_unknown_network_silently_defaults :
    lookupAssoc chainIdTable "solana-devnet" = none ∧
    getChainId "solana-devnet" = 42101 ∧
    getChainId "push-chain" = 42101 := by
  decide

/-! ### Claim C9 -/

/-- C9: the claim says an RPC timeout is a distinct retryable condition from
a confirmed `transaction not found`, degrading to optimistic acceptance only
under an explicit best-effort flag.  `verifyTransaction` has no such flag
and returns success on the timeout, on a missing receipt, and on missing
transaction details alike — the three outcomes are indistinguishable and
settlement proceeds unconditionally. -/
theorem c9_timeout_fails_open :
    verifyTransaction "rpc" .timeout "push-chain" "0xBBB" "0xAAA" 5 = .ok () ∧
    verifyTransaction "rpc" .receiptNotFound "push-chain" "0xBBB" "0xAAA" 5 = .ok () ∧
    verifyTransaction "rpc" .txNotFound "push-chain" "0xBBB" "0xAAA" 5 = .ok () := by
  decide

/-! ### Claim C4 -/

/-- The registry after recording the sample payment at block timestamp 7. -/
def c4St1 : RegistryState :=
  ((exceptToOption (recordOnce 7 sampleRegistry)).map Prod.snd).getD sampleRegistry

/-- …then marking it settled. -/
def c4St2 : RegistryState :=
  (exceptToOption (markPaymentSettled (samplePid 7) "0xSETTLE" c4St1)).getD c4St1

/-- …then re-recording the identical payment in the same block. -/
def c4St3 : RegistryState :=
  ((exceptToOption (recordOnce 7 c4St2)).map Prod.snd).getD c4St2

/-- C4, counterexample to `no transition ever leaves the Settled state`:
record the sample payment at block timestamp 7, settle it, then call
`recordPayment` again with the identical arguments in the same block.  The
timestamp-salted id collides, the mapping assignment overwrites the settled
record with a fresh unsettled one, and the record's `settled` flag goes
`true → false`. -/
theorem c4_settled_record_overwritten :
    (exceptToOption (recordOnce 7 sampleRegistry)).map Prod.fst = some (samplePid 7) ∧
    exceptOk (markPaymentSettled (samplePid 7) "0xSETTLE" c4St1) = true ∧
    (getPaymentRecordStored c4St2 (samplePid 7)).settled = true ∧
    (exceptToOption (recordOnce 7 c4St2)).map Prod.fst = some (samplePid 7) ∧
    (getPaymentRecordStored c4St3 (samplePid 7)).settled = false := by
  decide

/-- C4, the state machine as the code actually implements it (the claim
amended only where the counterexample forces it): `recordPayment` fails on
an inactive requirement and on an insufficient amount; `markPaymentSettled`
fails with `Payment not found` when no record exists (`timestamp = 0`) and
with `Payment already settled` on a settled record, and otherwise flips
`settled` `false → true` with an immediate second settle failing; a settled
record survives every `markPaymentSettled` call and every `recordPayment`
call whose derived id differs — only a `recordPayment` that recomputes the
identical id overwrites a settled record (the counterexample above). -/
theorem c4_state_machine (resolveOrigin : String → Option UniversalAccountId)
    (blockTimestamp : Nat) (merchant resource payer : String) (amount : Nat)
    (txHash : String) (st : RegistryState) :
    ((getPaymentRequirementStored st merchant resource).isActive = false →
      recordPayment resolveOrigin blockTimestamp merchant resource payer amount txHash st
        = .error "Payment requirement not active") ∧
    ((getPaymentRequirementStored st merchant resource).isActive = true →
      amount < (getPaymentRequirementStored st merchant resource).maxAmountRequired →
      recordPayment resolveOrigin blockTimestamp merchant resource payer amount txHash st
        = .error "Insufficient payment amount") ∧
    (∀ pid sh, (getPaymentRecordStored st pid).timestamp = 0 →
      markPaymentSettled pid sh st = .error "Payment not found") ∧
    (∀ pid sh, (getPaymentRecordStored st pid).timestamp ≠ 0 →
      (getPaymentRecordStored st pid).settled = true →
      markPaymentSettled pid sh st = .error "Payment already settled") ∧
    (∀ pid sh, (getPaymentRecordStored st pid).timestamp ≠ 0 →
      (getPaymentRecordStored st pid).settled = false →
      ∃ st', markPaymentSettled pid sh st = .ok st' ∧
        (getPaymentRecordStored st' pid).settled = true ∧
        ∀ sh2, markPaymentSettled pid sh2 st' = .error "Payment already settled") ∧
    (∀ pid, (getPaymentRecordStored st pid).settled = true →
      (∀ pid2 sh st', markPaymentSettled pid2 sh st = .ok st' →
        (getPaymentRecordStored st' pid).settled = true) ∧
      (∀ pid2 st', recordPayment resolveOrigin blockTimestamp merchant resource payer
          amount txHash st = .ok (pid2, st') → pid2 ≠ pid →
        (getPaymentRecordStored st' pid).settled = true)) := by
  refine ⟨?_, ?_, ?_, ?_, ?_, ?_⟩
  · intro h
    unfold recordPayment
    rw [if_pos h]
  · intro h1 h2
    unfold recordPayment
    rw [if_neg (by simp [h1]), if_pos h2]
  · intro pid sh h
    unfold markPaymentSettled
    rw [if_pos (by omega)]
  · intro pid sh h1 h2
    unfold markPaymentSettled
    rw [if_neg (by omega), if_pos h2]
  · intro pid sh h1 h2
    have h1' : 0 < (getPaymentRecordStored st pid).timestamp := Nat.pos_of_ne_zero h1
    refine ⟨{ st with paymentRecords := setAssoc st.paymentRecords pid ({ getPaymentRecordStored st pid with settled := true }) }, ?_, ?_, ?_⟩
    · unfold markPaymentSettled
      rw [if_neg (by omega), if_neg (by simp [h2])]
    · simp [getPaymentRecordStored, lookupAssoc_setAssoc_self]
    · intro sh2
      simp [markPaymentSettled, getPaymentRecordStored, lookupAssoc_setAssoc_self, h1']
      exact h1
  · intro pid hsettled
    constructor
    · intro pid2 sh st' hok
      unfold markPaymentSettled at hok
      simp only [] at hok
      split_ifs at hok with hx1 hx2
      simp only [Except.ok.injEq] at hok
      subst hok
      by_cases heq : pid2 = pid
      · subst heq
        exact absurd hsettled hx2
      · simp only [getPaymentRecordStored]
        rw [lookupAssoc_setAssoc_ne _ _ _ _ (fun hh => heq hh.symm)]
        exact hsettled
    · intro pid2 st' hok hne
      unfold recordPayment at hok
      simp only [] at hok
      split_ifs at hok with hx1 hx2
      simp only [Except.ok.injEq, Prod.mk.injEq] at hok
      obtain ⟨hid, hst⟩ := hok
      subst hst
      subst hid
      simp only [getPaymentRecordStored]
      rw [lookupAssoc_setAssoc_ne _ _ _ _ (fun hh => hne hh.symm)]
      exact hsettled

/-- A concrete application of the state-machine theorem: settling a payment
id that was never recorded fails with `Payment not found`, and recording
against a registry with no requirement fails with
`Payment requirement not active`. -/
theorem c4_state_machine_witness :
    markPaymentSettled (samplePid 7) "0xS" sampleRegistry = .error "Payment not found" ∧
    recordPayment noUea 3 "0xAAA" "/api/premium" "0xBBB" 5 "0xTRANSFER"
      { paymentRequirements := [], paymentRecords := [], merchantPayments := [] }
      = .error "Payment requirement not active" :=
  ⟨(c4_state_machine noUea 3 "0xAAA" "/api/premium" "0xBBB" 5 "0xTRANSFER"
      sampleRegistry).2.2.1 (samplePid 7) "0xS" (by decide),
   (c4_state_machine noUea 3 "0xAAA" "/api/premium" "0xBBB" 5 "0xTRANSFER"
      { paymentRequirements := [], paymentRecords := [], merchantPayments := [] }).1 (by decide)⟩

/-! ### Claim C2 -/

/-- Whenever the retrieved source-chain transaction disagrees with the
expected sender, recipient, amount or success status, `verifyTransaction`
returns a `SETTLEMENT_FAILED` error (whichever check fires first). -/
theorem verifyTransaction_found_mismatch (pushRpc network expectedFrom expectedTo : String)
    (expectedAmount : Nat) (txFrom : String) (txTo : Option String)
    (txValue receiptStatus : Nat)
    (hmis : lowerStr txFrom ≠ lowerStr expectedFrom ∨
      txTo.map lowerStr ≠ some (lowerStr expectedTo) ∨
      txValue < expectedAmount ∨ receiptStatus ≠ 1) :
    ∃ e : AppError,
      verifyTransaction pushRpc (.found txFrom txTo txValue receiptStatus) network
        expectedFrom expectedTo expectedAmount = .error e ∧
      e.code = .SETTLEMENT_FAILED := by
  unfold verifyTransaction
  simp only []
  by_cases h0 : (lookupAssoc (rpcUrls pushRpc) network).getD "" = ""
  · exact ⟨_, by rw [if_pos h0], rfl⟩
  · rw [if_neg h0]
    by_cases h1 : lowerStr txFrom = lowerStr expectedFrom
    · rw [if_neg (fun hcon => hcon h1)]
      by_cases h2 : txTo.map lowerStr = some (lowerStr expectedTo)
      · rw [if_neg (fun hcon => hcon h2)]
        by_cases h3 : txValue < expectedAmount
        · exact ⟨_, by rw [if_pos h3], rfl⟩
        · rw [if_neg h3]
          by_cases h4 : receiptStatus = 1
          · exact absurd (by simpa [h1, h2, h4] using hmis) h3
          · exact ⟨_, by rw [if_pos h4], rfl⟩
      · exact ⟨_, by rw [if_pos h2], rfl⟩
    · exact ⟨_, by rw [if_pos h1], rfl⟩

/-- C2: a record is created only behind a present and consistent transfer
proof.  Given a payload that passes verification: with no transaction
reference (or JavaScript's falsy empty string) settlement fails with the
`Transaction hash not provided by agent` error and the registry state is
returned unchanged; and when the referenced transaction is retrieved with
a mismatched sender, mismatched recipient, insufficient value, or a failed
receipt status, settlement fails with a `SETTLEMENT_FAILED` error and the
registry state is again unchanged — `recordPayment` is never reached. -/
theorem c2_settlement_requires_transfer_proof
    (recover : Eip712Domain → Authorization → String → Except String String)
    (isSupportedToken : String → Bool)
    (resolveOrigin : String → Option UniversalAccountId)
    (pushRpc : String) (rpc : RpcOutcome) (settleTxHash : String)
    (now blockTimestamp nowMs reqVer : Nat)
    (pp : PaymentPayload) (req : PaymentRequirements) (st : RegistryState)
    (hvalid : (verifyPaymentChecks recover isSupportedToken now reqVer pp req).isValid = true) :
    ((pp.payload.txHash = none ∨ pp.payload.txHash = some "") →
      settlePayment recover isSupportedToken resolveOrigin pushRpc rpc settleTxHash
          now blockTimestamp nowMs reqVer pp req st
        = (st, .error { code := .SETTLEMENT_FAILED
                        message := "Transaction hash not provided by agent" })) ∧
    (∀ h txFrom txTo txValue receiptStatus,
      pp.payload.txHash = some h → h ≠ "" →
      rpc = .found txFrom txTo txValue receiptStatus →
      (lowerStr txFrom ≠ lowerStr pp.payload.authorization.fromAddr ∨
       txTo.map lowerStr ≠ some (lowerStr req.payTo) ∨
       txValue < pp.payload.authorization.value ∨ receiptStatus ≠ 1) →
      ∃ e : AppError, e.code = .SETTLEMENT_FAILED ∧
        settlePayment recover isSupportedToken resolveOrigin pushRpc rpc settleTxHash
            now blockTimestamp nowMs reqVer pp req st = (st, .error e)) := by
  constructor
  · intro htx
    rcases htx with htx | htx <;> simp [settlePayment, hvalid, htx]
  · intro h txFrom txTo txValue receiptStatus htx hne hrpc hmis
    subst hrpc
    obtain ⟨e, heq, hecode⟩ := verifyTransaction_found_mismatch pushRpc pp.network
      pp.payload.authorization.fromAddr req.payTo pp.payload.authorization.value
      txFrom txTo txValue receiptStatus hmis
    refine ⟨e, hecode, ?_⟩
    simp [settlePayment, hvalid, htx, hne, heq]

/-- A concrete application of the transfer-proof theorem: the sample
payment without any transaction reference is rejected and the registry is
left untouched. -/
theorem c2_settlement_requires_transfer_proof_witness :
    settlePayment recoverOkB allTokensSupported noUea "rpc" goodRpc "0xSETTLE"
        50 1 1000 1 (samplePayload none) sampleReq sampleRegistry
      = (sampleRegistry, .error { code := .SETTLEMENT_FAILED
                                  message := "Transaction hash not provided by agent" }) :=
  (c2_settlement_requires_transfer_proof recoverOkB allTokensSupported noUea "rpc"
    goodRpc "0xSETTLE" 50 1 1000 1 (samplePayload none) sampleReq sampleRegistry
    (by decide)).1 (Or.inl rfl)

/-! ### Claim C5 -/

/-- C5: the verification pipeline checks exactly in the claimed order —
version, scheme, signature, amount sufficiency, token support with the
native sentinel always passing, then the inclusive time window — returning
the first failing check's reason, and on success
`expiresAt = validBefore`: the pipeline equals the order specification on
every input (in particular `validBefore = now` passes and
`validBefore = now - 1` yields `Payment expired`). -/
theorem c5_check_order
    (recover : Eip712Domain → Authorization → String → Except String String)
    (isSupportedToken : String → Bool) (now requestVersion : Nat)
    (pp : PaymentPayload) (req : PaymentRequirements) :
    verifyPaymentChecks recover isSupportedToken now requestVersion pp req =
      verifyPaymentSpecOrder recover isSupportedToken now requestVersion pp req := by
  unfold verifyPaymentChecks verifyPaymentSpecOrder
  split_ifs <;> first | rfl | omega | tauto | simp_all

/-! ### Claim C10 -/

/-- C10: the signature check is total and exact: it returns `true` exactly
when the recovery collaborator succeeds and the recovered address equals
`authorization.from` case-insensitively; in every other case — including
any recovery error on malformed input — it returns `false` rather than
letting the exception escape the pipeline. -/
theorem c10_signature_check_total
    (recover : Eip712Domain → Authorization → String → Except String String)
    (pp : PaymentPayload) (req : PaymentRequirements) :
    verifySignature recover pp req = true ↔
      ∃ a, recover (buildDomain pp req) pp.payload.authorization pp.payload.signature = .ok a ∧
        lowerStr a = lowerStr pp.payload.authorization.fromAddr := by
  unfold verifySignature
  cases hr : recover (buildDomain pp req) pp.payload.authorization pp.payload.signature with
  | ok a => simp [hr]
  | error e => simp [hr]

/-! ### Claim C7 -/

/-- C7: the authorization codec round-trips and fails closed.  For every
well-formed payload (printable-ASCII strings without quote or backslash,
which `JSON.stringify` emits verbatim), decoding the encoded header gives
back exactly the payload's JSON object, from which every payload field is
recovered; and on every input string the decoder returns either a decoded
object or the structured `Invalid payment header encoding` error — it
never throws. -/
theorem c7_codec_round_trip (w : WirePayload) (s : String)
    (hwf : wfJson (wireToJson w) = true) :
    (decodePaymentHeader (encodePaymentHeader w) = .ok (wireToJson w) ∧
      wireFromJson (wireToJson w) = some w) ∧
    (decodePaymentHeader s = .error invalidEncodingError ∨
      ∃ j, decodePaymentHeader s = .ok j) :=
  ⟨⟨decodePaymentHeader_encodePaymentHeader w hwf, wireFromJson_wireToJson w⟩,
   decodePaymentHeader_total s⟩

/-- A sample wire payload of the shape `createPayment` produces. -/
def c7SampleWire : WirePayload :=
  { x402Version := 1, scheme := "exact", network := "push-chain", signature := "0xS",
    authorization := { fromAddr := "0xB", toAddr := "0xA", value := "5",
                       validAfter := "10", validBefore := "100", nonce := "0x01" } }

/-- A concrete application of the codec theorem at the sample payload and
the garbage input string. -/
theorem c7_codec_round_trip_witness :
    wfJson (wireToJson c7SampleWire) = true ∧
    ((decodePaymentHeader (encodePaymentHeader c7SampleWire) = .ok (wireToJson c7SampleWire) ∧
      wireFromJson (wireToJson c7SampleWire) = some c7SampleWire) ∧
     (decodePaymentHeader "$garbage$" = .error invalidEncodingError ∨
      ∃ j, decodePaymentHeader "$garbage$" = .ok j)) :=
  ⟨by decide, c7_codec_round_trip c7SampleWire "$garbage$" (by decide)⟩

/-! ### Claim C8 -/

/-- C8: origin attribution of a recorded payment follows the origin
resolver's answer for the payer: a cross-chain account yields
`originChain = chainNamespace ++ ":" ++ chainId`, the owner's 20-byte
address as `originAddress`, and the remote-origin flag set; a native payer
yields the `push-chain` sentinel, the payer itself, and the flag clear. -/
theorem c8_origin_attribution (resolveOrigin : String → Option UniversalAccountId)
    (blockTimestamp : Nat) (merchant resource payer : String) (amount : Nat)
    (txHash : String) (st : RegistryState) (paymentId : PaymentIdPre)
    (st' : RegistryState)
    (hok : recordPayment resolveOrigin blockTimestamp merchant resource payer amount
      txHash st = .ok (paymentId, st')) :
    (∀ acc, resolveOrigin payer = some acc →
      (getPaymentRecordStored st' paymentId).originChain
          = acc.chainNamespace ++ ":" ++ acc.chainId ∧
        (getPaymentRecordStored st' paymentId).originAddress = addrOfBytes20 acc.owner ∧
        (getPaymentRecordStored st' paymentId).isUEA = true) ∧
    (resolveOrigin payer = none →
      (getPaymentRecordStored st' paymentId).originChain = "push-chain" ∧
        (getPaymentRecordStored st' paymentId).originAddress = payer ∧
        (getPaymentRecordStored st' paymentId).isUEA = false) := by
  unfold recordPayment at hok
  simp only [] at hok
  split_ifs at hok with hx1 hx2
  simp only [Except.ok.injEq, Prod.mk.injEq] at hok
  obtain ⟨hid, hst⟩ := hok
  subst hst
  subst hid
  constructor
  · intro acc hacc
    rw [hacc] at *
    simp only [getPaymentRecordStored, lookupAssoc_setAssoc_self, hacc, Option.getD_some]
    exact ⟨trivial, trivial, trivial⟩
  · intro hnone
    simp only [getPaymentRecordStored, lookupAssoc_setAssoc_self, hnone, Option.getD_some]
    exact ⟨trivial, trivial, trivial⟩

/-- The registry state after recording the sample payment through the
Sepolia origin resolver. -/
def c8St : RegistryState :=
  ((exceptToOption (recordPayment ueaResolver 7 "0xAAA" "/api/premium" "0xBBB" 5
    "0xT" sampleRegistry)).map Prod.snd).getD sampleRegistry

/-- The payment id that recording derives. -/
def c8Pid : PaymentIdPre :=
  { merchant := "0xAAA", resource := "/api/premium", payer := "0xBBB", amount := 5,
    timestamp := 7, txHash := "0xT" }

/-- A concrete application of the attribution theorem: the Sepolia payer's
record carries `originChain = "eip155:11155111"`, the resolved owner
address, and the remote-origin flag. -/
theorem c8_origin_attribution_witness :
    (getPaymentRecordStored c8St c8Pid).originChain = "eip155:11155111" ∧
    (getPaymentRecordStored c8St c8Pid).originAddress
        = addrOfBytes20 (List.replicate 20 221) ∧
    (getPaymentRecordStored c8St c8Pid).isUEA = true :=
  (c8_origin_attribution ueaResolver 7 "0xAAA" "/api/premium" "0xBBB" 5 "0xT"
    sampleRegistry c8Pid c8St rfl).1
    { chainNamespace := "eip155", chainId := "11155111", owner := List.replicate 20 221 }
    rfl

end X402
